import Mathlib

/- A shallow embedding of doxycheck (src/doxycheck/__init__.py): the input
   resolution of Doxycheck.__init__ / _resolve_explicit_inputs /
   _resolve_inputs_recursively, the staging-tree mirroring of
   _generate_doxygen, the warning-line rewriting of _show_doxygen_warnings,
   and the effect sequence of check().

   Modelling choices: absolute paths are lists of components (os.path.join
   of components is list append, os.path.basename is the last component,
   os.path.dirname is dropLast, os.path.relpath p start with start a prefix
   of p drops that prefix, os.path.realpath of an already absolute and
   normalized path is the identity).  The filesystem is a flat list of
   regular files (paths with contents) plus a list of directory paths; the
   worlds used in concrete theorems list every ancestor directory and keep
   directories in depth-first order, which is the order os.walk reports.
   Python dicts are association lists with insertion order; dict update
   replaces the value in place, a missing key on item access is a KeyError.
   Fallible code returns Except; reading the loop variable d of the
   directory loop after a run with no directories is Python's NameError. -/

namespace Doxycheck

/-- Absolute paths, as lists of path components. -/
abbrev Path := List String

/-- Recognized C/C++ source and header extensions (Doxycheck.C_EXTS, line 52). -/
def C_EXTS : List String :=
  [".c", ".cc", ".cxx", ".cpp", ".c++", ".h", ".hh", ".hxx", ".hpp", ".h++"]

/-- Split a list of characters at its last dot: returns the characters
    before that dot and the suffix starting with it. -/
def splitLastDot : List Char → Option (List Char × List Char)
  | [] => none
  | c :: cs =>
    match splitLastDot cs with
    | some (b, a) => some (c :: b, a)
    | none => if c = '.' then some ([], c :: cs) else none

/-- Extension of a basename, following os.path.splitext: the suffix from
    the last dot on, provided some character before that dot is not itself
    a dot (so ".bashrc" and "..c" have no extension). -/
def extOf (s : String) : String :=
  match splitLastDot s.data with
  | some (b, a) => if b.any (fun c => c != '.') then String.mk a else ""
  | none => ""

/-- Last path component, as os.path.basename on a normalized absolute path. -/
def basenameOf (p : Path) : String := p.getLastD ""

/-- The filesystem visible to one run: regular files with their contents,
    and directories.  Directories are listed in depth-first order with
    every ancestor present, matching what a real tree provides. -/
structure World where
  files : List (Path × String)
  dirs : List Path

/-- The path names a regular file (os.path.isfile). -/
def World.isFile (w : World) (p : Path) : Prop := p ∈ w.files.map Prod.fst

/-- The path names a directory (os.path.isdir). -/
def World.isDir (w : World) (p : Path) : Prop := p ∈ w.dirs

instance (w : World) (p : Path) : Decidable (w.isFile p) :=
  inferInstanceAs (Decidable (p ∈ w.files.map Prod.fst))

instance (w : World) (p : Path) : Decidable (w.isDir p) :=
  inferInstanceAs (Decidable (p ∈ w.dirs))

/-- The path exists on the filesystem (os.path.exists). -/
def World.pathExists (w : World) (p : Path) : Prop := w.isFile p ∨ w.isDir p

instance (w : World) (p : Path) : Decidable (w.pathExists p) :=
  inferInstanceAs (Decidable (w.isFile p ∨ w.isDir p))

/-- Content of the regular file at a path, none when there is no such file
    (open(p).read() succeeding exactly on regular files). -/
def World.read (w : World) (p : Path) : Option String :=
  (w.files.find? (fun fc => fc.1 == p)).map Prod.snd

/-- An input path is an existing file with a recognized extension, or an
    existing directory: exactly the inputs __init__ and
    _resolve_explicit_inputs accept. -/
def validInput (w : World) (p : Path) : Prop :=
  (w.isFile p ∧ extOf (basenameOf p) ∈ C_EXTS) ∨ w.isDir p

instance (w : World) (p : Path) : Decidable (validInput w p) :=
  inferInstanceAs (Decidable ((w.isFile p ∧ extOf (basenameOf p) ∈ C_EXTS) ∨ w.isDir p))

/-- The ways resolution aborts: the existence assertion of __init__ (line
    87), the classification assertion of _resolve_explicit_inputs (line
    172), Python's NameError on the unbound loop variable d (line 196), and
    the KeyError of recursive_dirs[dirname] (line 256). -/
inductive ResolveError where
  | notExist (p : Path)
  | unknownType (p : Path)
  | nameError
  | keyError (k : Path)
deriving DecidableEq

/-- One selected source file: the file_dict {"in": ..., "out": ...}. -/
structure FileInfo where
  inPath : Path
  outPath : Path
deriving DecidableEq

/-- One staging unit: the dir_dict {"in": ..., "out": ..., "files": ...};
    the pseudo-root "." stores the sentinel inPath ["."]. -/
structure RootInfo where
  inPath : Path
  outPath : Path
  files : List FileInfo
deriving DecidableEq

/-- The self.inputs dict: an insertion-ordered association list from root
    name to RootInfo.  Root names are the dict keys of the source: the
    string "." is modelled as ["."], a directory root's basename as a
    one-component list, and a recursively discovered root's slash-joined
    name as the list of its components. -/
abbrev Inputs := List (Path × RootInfo)

/-- The keys of the dict, in insertion order. -/
def keysOf (m : Inputs) : List Path := m.map Prod.fst

/-- Python dict update self.inputs.update({k: v}): replace the value in
    place when the key is present, append the pair otherwise. -/
def dupdate (m : Inputs) (k : Path) (v : RootInfo) : Inputs :=
  if k ∈ keysOf m then m.map (fun kv => if kv.1 = k then (kv.1, v) else kv)
  else m ++ [(k, v)]

/-- Python dict item access m[k], none is a KeyError. -/
def dlookup (m : Inputs) (k : Path) : Option RootInfo :=
  (m.find? (fun kv => kv.1 == k)).map Prod.snd

/-- m[k]["files"].append(f): append a FileInfo to the named root's file
    list; none is the KeyError of a missing key. -/
def dappendFile (m : Inputs) (k : Path) (f : FileInfo) : Option Inputs :=
  if k ∈ keysOf m then
    some (m.map (fun kv =>
      if kv.1 = k then (kv.1, { kv.2 with files := kv.2.files ++ [f] }) else kv))
  else none

/-- The existence assertions of Doxycheck.__init__ (lines 86-87): the first
    input that does not exist aborts. -/
def checkInputsExist (w : World) : List Path → Except ResolveError Unit
  | [] => Except.ok ()
  | f :: rest =>
    if w.pathExists f then checkInputsExist w rest
    else Except.error (ResolveError.notExist f)

/-- The classification loop of _resolve_explicit_inputs (lines 164-172):
    partition the inputs, in order, into recognized-extension files and
    directories; anything else is the assertion at line 172. -/
def classifyInputs (w : World) : List Path → Except ResolveError (List Path × List Path)
  | [] => Except.ok ([], [])
  | f :: rest =>
    if w.isFile f ∧ extOf (basenameOf f) ∈ C_EXTS then
      (classifyInputs w rest).map (fun fd => (f :: fd.1, fd.2))
    else if w.isDir f then
      (classifyInputs w rest).map (fun fd => (fd.1, f :: fd.2))
    else Except.error (ResolveError.unknownType f)

/-- The files loop of _resolve_explicit_inputs (lines 195-207): one append
    to "."'s file list per explicit file, every iteration appending the
    same entry fe built from the leftover directory loop variable. -/
def appendExplicitFiles (fe : FileInfo) : List Path → Inputs → Except ResolveError Inputs
  | [], m => Except.ok m
  | _ :: rest, m =>
    match dappendFile m ["."] fe with
    | some m2 => appendExplicitFiles fe rest m2
    | none => Except.error (ResolveError.keyError ["."])

/-- The directory loop of _resolve_explicit_inputs (lines 181-193): each
    directory becomes a root keyed by its basename, destined to a fresh
    subdirectory of the staging file-source directory. -/
def registerDirs (srcdir : Path) (dirs : List Path) (m : Inputs) : Inputs :=
  dirs.foldl (fun m d => dupdate m [basenameOf d] ⟨d, srcdir ++ [basenameOf d], []⟩) m

/-- The explicit pass _resolve_explicit_inputs (lines 160-207).  The "."
    pseudo-root is registered first; each directory becomes a root keyed by
    its basename; then the files loop (lines 195-207) reads the leftover
    loop variable d of the directory loop: with no directory that read is a
    NameError, otherwise every explicit file appends to "."'s file list one
    entry built from the LAST directory's path and basename, not from the
    file's own path. -/
def resolve_explicit_inputs (w : World) (srcdir : Path) (fname : List Path) :
    Except ResolveError Inputs :=
  match classifyInputs w fname with
  | Except.error e => Except.error e
  | Except.ok (files, dirs) =>
    if files.isEmpty then
      Except.ok (registerDirs srcdir dirs (dupdate [] ["."] ⟨["."], srcdir, []⟩))
    else
      match dirs.getLast? with
      | none => Except.error ResolveError.nameError
      | some d =>
        appendExplicitFiles ⟨d, srcdir ++ [basenameOf d]⟩ files
          (registerDirs srcdir dirs (dupdate [] ["."] ⟨["."], srcdir, []⟩))

/-- Names of the immediate subdirectories of a directory, as os.walk
    reports them. -/
def childDirNames (w : World) (p : Path) : List String :=
  w.dirs.filterMap (fun d => if d.dropLast = p then d.getLast? else none)

/-- Names of the regular files directly inside a directory. -/
def childFileNames (w : World) (p : Path) : List String :=
  w.files.filterMap (fun fc => if fc.1.dropLast = p then fc.1.getLast? else none)

/-- os.walk(top): one (dirpath, dirnames, filenames) triple per directory
    of the subtree, top first, then the rest in the world's depth-first
    order; walking a non-directory yields nothing. -/
def osWalk (w : World) (top : Path) : List (Path × List String × List String) :=
  if top ∈ w.dirs then
    (top :: w.dirs.filter (fun d => top.isPrefixOf d && d != top)).map
      (fun p => (p, childDirNames w p, childFileNames w p))
  else []

/-- The inner files loop of one os.walk triple (lines 237-256): skip a
    file whose extension is unrecognized, otherwise attach its file_dict to
    recursive_dirs[os.path.dirname(f_name)] - a KeyError when that key was
    never registered in recursive_dirs. -/
def walkFilesLoop (rootName relp root rootOut : Path) :
    List String → Inputs → Except ResolveError Inputs
  | [], m => Except.ok m
  | fn :: rest, m =>
    if extOf fn ∈ C_EXTS then
      match dappendFile m ((rootName ++ relp ++ [fn]).dropLast)
          ⟨root ++ [fn], rootOut ++ relp ++ [fn]⟩ with
      | some m2 => walkFilesLoop rootName relp root rootOut rest m2
      | none => Except.error (ResolveError.keyError ((rootName ++ relp ++ [fn]).dropLast))
    else walkFilesLoop rootName relp root rootOut rest m

/-- Processing of one os.walk triple in _resolve_inputs_recursively (lines
    220-256): register every subdirectory of the triple in recursive_dirs,
    then run the files loop.  For a file directly inside the walk's top
    directory the dirname key is the top root's own name, which lives in
    self.inputs and never in recursive_dirs. -/
def processWalkEntry (rootName rootIn rootOut : Path) (rd : Inputs)
    (e : Path × List String × List String) : Except ResolveError Inputs :=
  let root := e.1
  let relp := root.drop rootIn.length
  let rd1 := (e.2.1).foldl
    (fun m dn =>
      dupdate m (rootName ++ relp ++ [dn]) ⟨root ++ [dn], rootOut ++ relp ++ [dn], []⟩) rd
  walkFilesLoop rootName relp root rootOut (e.2.2) rd1

/-- The loop over the triples of one os.walk call. -/
def walkEntriesLoop (rootName rootIn rootOut : Path) :
    List (Path × List String × List String) → Inputs → Except ResolveError Inputs
  | [], rd => Except.ok rd
  | e :: rest, rd =>
    match processWalkEntry rootName rootIn rootOut rd e with
    | Except.error err => Except.error err
    | Except.ok rd2 => walkEntriesLoop rootName rootIn rootOut rest rd2

/-- The outer loop of _resolve_inputs_recursively over self.inputs.items()
    (lines 213-256): skip the root whose in path is ".", walk every other
    root, threading recursive_dirs through. -/
def rootsLoop (w : World) : List (Path × RootInfo) → Inputs → Except ResolveError Inputs
  | [], rd => Except.ok rd
  | kv :: rest, rd =>
    if kv.2.inPath = ["."] then rootsLoop w rest rd
    else
      match walkEntriesLoop kv.1 kv.2.inPath kv.2.outPath (osWalk w kv.2.inPath) rd with
      | Except.error err => Except.error err
      | Except.ok rd2 => rootsLoop w rest rd2

/-- The recursive pass _resolve_inputs_recursively (lines 209-258): walk
    every root other than ".", accumulating recursive_dirs, then merge with
    self.inputs = {**self.inputs, **recursive_dirs}. -/
def resolve_inputs_recursively (w : World) (inputs : Inputs) :
    Except ResolveError Inputs :=
  match rootsLoop w inputs ([] : Inputs) with
  | Except.error e => Except.error e
  | Except.ok rd => Except.ok (rd.foldl (fun m kv => dupdate m kv.1 kv.2) inputs)

/-- Input resolution as run by Doxycheck.__init__ (lines 84-118): assert
    every input exists, then the explicit pass, then the recursive pass.
    srcdir is self.doxygen_out["srcdir"], the staging file-source
    directory. -/
def doxycheck_resolve (w : World) (srcdir : Path) (fname : List Path) :
    Except ResolveError Inputs :=
  match checkInputsExist w fname with
  | Except.error e => Except.error e
  | Except.ok _ =>
    match resolve_explicit_inputs w srcdir fname with
    | Except.error e => Except.error e
    | Except.ok inputs => resolve_inputs_recursively w inputs

/-- Failure modes of the mirroring loop of _generate_doxygen. -/
inductive MirrorError where
  | dirExists (p : Path)
  | readError (p : Path)
deriving DecidableEq

/-- os.makedirs on a set of existing directories: with exist_ok an already
    existing directory is returned unchanged, without it it is an error; a
    new directory is added. -/
def makedirsSem (existing : List Path) (p : Path) (existOk : Bool) :
    Except MirrorError (List Path) :=
  if p ∈ existing then
    if existOk then Except.ok existing else Except.error (MirrorError.dirExists p)
  else Except.ok (existing ++ [p])

/-- The synthetic marker _generate_doxygen writes before each file's
    content (line 297). -/
def markerComment : String := "/** @file */"

/-- The files loop of one root in _generate_doxygen (lines 294-298): for
    every file of the root one staged write of the marker followed by the
    source content; a missing source file is a read error. -/
def mirrorFilesLoop (w : World) :
    List FileInfo → List (Path × String) → Except MirrorError (List (Path × String))
  | [], ws => Except.ok ws
  | f :: rest, ws =>
    match w.read f.inPath with
    | some c => mirrorFilesLoop w rest (ws ++ [(f.outPath, markerComment ++ c)])
    | none => Except.error (MirrorError.readError f.inPath)

/-- One root of the mirroring loop of _generate_doxygen (lines 290-298):
    os.makedirs(out_dir, exist_ok=True), then the files loop. -/
def mirrorRoot (w : World) (st : List Path × List (Path × String)) (info : RootInfo) :
    Except MirrorError (List Path × List (Path × String)) :=
  match makedirsSem st.1 info.outPath true with
  | Except.error e => Except.error e
  | Except.ok ex2 =>
    match mirrorFilesLoop w info.files st.2 with
    | Except.error e => Except.error e
    | Except.ok ws2 => Except.ok (ex2, ws2)

/-- The roots loop of _generate_doxygen, over every root of the mapping in
    order, threading the set of existing directories and the staged
    writes. -/
def mirrorRootsLoop (w : World) :
    List (Path × RootInfo) → List Path × List (Path × String) →
    Except MirrorError (List Path × List (Path × String))
  | [], st => Except.ok st
  | kv :: rest, st =>
    match mirrorRoot w st kv.2 with
    | Except.error e => Except.error e
    | Except.ok st2 => mirrorRootsLoop w rest st2

/-- The whole mirroring loop of _generate_doxygen (lines 290-298), starting
    from a given set of already existing directories and no staged
    writes. -/
def generate_doxygen_mirror (w : World) (existing : List Path) (inputs : Inputs) :
    Except MirrorError (List Path × List (Path × String)) :=
  mirrorRootsLoop w inputs (existing, [])

/-- The externally visible operations check() performs, in order. -/
inductive CheckStep where
  | makedirs (p : Path)
  | makedirsExistOk (p : Path)
  | writeStaged (src dst : Path)
  | runDoxygen
  | showWarnings
  | openHtml
  | runSphinx
  | removeTree (p : Path)
deriving DecidableEq

/-- Whether a step removes a directory tree (shutil.rmtree). -/
def CheckStep.isRemove : CheckStep → Bool
  | CheckStep.removeTree _ => true
  | _ => false

/-- The effect sequence of check() (lines 260-281): create the two staging
    build directories, mirror every root and file, run the generator, show
    the warnings, then optionally open the HTML and optionally generate the
    sphinx tree.  The cleanup at lines 280-281 is commented out in the
    source, so no removeTree step is ever emitted. -/
def check_steps (outdir : Path) (inputs : Inputs) (doxygenHtml sphinxHtml : Bool) :
    List CheckStep :=
  [CheckStep.makedirs (outdir ++ ["src"]), CheckStep.makedirs (outdir ++ ["build", "doxygen"])]
  ++ (inputs.map (fun kv =>
        CheckStep.makedirsExistOk kv.2.outPath
          :: kv.2.files.map (fun f => CheckStep.writeStaged f.inPath f.outPath))).flatten
  ++ [CheckStep.runDoxygen, CheckStep.showWarnings]
  ++ (if doxygenHtml then [CheckStep.openHtml] else [])
  ++ (if sphinxHtml then [CheckStep.runSphinx] else [])

/-- One whole invocation: resolution as in __init__, then the effect
    sequence of check(); a resolution failure aborts before any staging
    effect exists. -/
def doxycheck_main (w : World) (outdir : Path) (fname : List Path)
    (doxygenHtml sphinxHtml : Bool) : Except ResolveError (List CheckStep) :=
  (doxycheck_resolve w (outdir ++ ["src"]) fname).map
    (fun inputs => check_steps outdir inputs doxygenHtml sphinxHtml)

/-- Fuel-indexed body of Python str.replace: scan left to right, replace
    each non-overlapping occurrence of old.  Fuel at least the length of s
    makes the scan complete; each step consumes one unit and, for nonempty
    old, shortens the remaining input. -/
def pyReplaceFuel : Nat → List Char → List Char → List Char → List Char
  | 0, s, _, _ => s
  | Nat.succ fuel, s, old, new =>
    match s with
    | [] => []
    | c :: rest =>
      if old.isPrefixOf (c :: rest) then
        new ++ pyReplaceFuel fuel ((c :: rest).drop old.length) old new
      else
        c :: pyReplaceFuel fuel rest old new

/-- Python s.replace(old, new) for nonempty old (the source only ever
    replaces the nonempty pattern srcdir + "/"); an empty pattern is
    returned unchanged here. -/
def pyReplace (s old new : List Char) : List Char :=
  if old.isEmpty then s else pyReplaceFuel s.length s old new

/-- The per-line rewrite of _show_doxygen_warnings (line 398):
    line.replace(srcdir + "/", ""). -/
def show_doxygen_warnings_line (srcdir : String) (line : String) : String :=
  String.mk (pyReplace line.data (srcdir ++ "/").data [])

/-- Modelled from the spec: the Warning record of the WarningReporter
    (spec section 4.4).  The source's _show_doxygen_warnings only rewrites
    and prints each log line and never builds a structured record, so the
    record and its grammar are taken from the spec's words. -/
structure Warning where
  file : String
  line : Nat
  severity : String
  message : String
deriving DecidableEq

/-- Split a character list at the first occurrence of a character,
    dropping it. -/
def splitOnceChar (c : Char) : List Char → Option (List Char × List Char)
  | [] => none
  | x :: xs =>
    if x = c then some ([], xs)
    else (splitOnceChar c xs).map (fun pr => (x :: pr.1, pr.2))

/-- Decimal number made of at least one digit. -/
def parseNatDigits (cs : List Char) : Option Nat :=
  if cs ≠ [] ∧ cs.all (fun c => c.isDigit) then
    some (cs.foldl (fun n c => n * 10 + (c.toNat - 48)) 0)
  else none

/-- Modelled from the spec: parsing one warning-log line of the grammar
    file, colon, line, colon, space, severity, colon, space, message (spec
    section 4.4); the source never parses its log lines into fields. -/
def parseWarningLine (s : String) : Option Warning :=
  match splitOnceChar ':' s.data with
  | none => none
  | some (fileCs, rest1) =>
    match splitOnceChar ':' rest1 with
    | none => none
    | some (lineCs, rest2) =>
      match parseNatDigits lineCs with
      | none => none
      | some n =>
        match rest2 with
        | ' ' :: rest3 =>
          match splitOnceChar ':' rest3 with
          | none => none
          | some (sevCs, rest4) =>
            match rest4 with
            | ' ' :: msg => some ⟨String.mk fileCs, n, String.mk sevCs, String.mk msg⟩
            | _ => none
        | _ => none

/-- Rendering of a Warning back to the log-line grammar it was parsed
    from; a staged warning is the same line with the staging prefix still
    on the file field. -/
def formatWarning (wr : Warning) : String :=
  wr.file ++ ":" ++ toString wr.line ++ ": " ++ wr.severity ++ ": " ++ wr.message

/- Concrete worlds and inputs used by the closed theorems and witnesses
   below. -/

/-- The staging root of one sample invocation (tempfile.mkdtemp result). -/
def sampleOut : Path := ["tmp", "doxycheck_x"]

/-- The staging file-source directory self.doxygen_out["srcdir"] of that
    invocation. -/
def sampleSrc : Path := sampleOut ++ ["src"]

/-- A directory lib containing the recognized file a.c directly. -/
def worldLibDirect : World := ⟨[(["lib", "a.c"], "int x;")], [["lib"]]⟩

/-- A loose recognized file main.c next to a directory include. -/
def worldFileAndDir : World := ⟨[(["main.c"], "int m;")], [["include"]]⟩

/-- Two distinct directories a/lib and b/lib sharing the basename lib. -/
def worldBasenameClash : World := ⟨[], [["a"], ["a", "lib"], ["b"], ["b", "lib"]]⟩

/-- A single loose recognized file and no directory at all. -/
def worldSingleFile : World := ⟨[(["main.c"], "int m;")], []⟩

/-- A directory lib whose only recognized file sits in the subdirectory
    sub, plus the unrecognized file notes.txt: the configuration the
    recursive pass handles without crashing. -/
def worldNested : World :=
  ⟨[(["lib", "notes.txt"], "n"), (["lib", "sub", "b.cpp"], "int b;")],
   [["lib"], ["lib", "sub"]]⟩

/-- A mapping with one root and one staged file, used to exercise the
    mirroring loop. -/
def mirrorInputs : Inputs :=
  [(["."], ⟨["."], sampleSrc, []⟩),
   (["lib"], ⟨["lib"], sampleSrc ++ ["lib"],
      [⟨["lib", "sub", "b.cpp"], sampleSrc ++ ["lib", "sub", "b.cpp"]⟩]⟩)]

instance : DecidableEq (Except ResolveError Inputs) := fun a b => by
  cases a <;> cases b
  case error.error e f => exact decidable_of_iff (e = f) (by simp)
  case ok.ok x y => exact decidable_of_iff (x = y) (by simp)
  all_goals exact isFalse (by simp)

/- Dictionary lemmas: keys after Python-style update and in-place file
   append. -/

theorem keysOf_map_entry (m : Inputs) (k : Path) (g : Path × RootInfo → RootInfo) :
    keysOf (m.map (fun kv => if kv.1 = k then (kv.1, g kv) else kv)) = keysOf m := by
  induction m with
  | nil => rfl
  | cons a t ih =>
    simp only [keysOf, List.map_cons] at ih ⊢
    by_cases h : a.1 = k <;> simp [h, ih]

theorem keysOf_dupdate (m : Inputs) (k : Path) (v : RootInfo) :
    keysOf (dupdate m k v) = if k ∈ keysOf m then keysOf m else keysOf m ++ [k] := by
  unfold dupdate
  by_cases h : k ∈ keysOf m
  · rw [if_pos h, if_pos h]
    exact keysOf_map_entry m k (fun _ => v)
  · rw [if_neg h, if_neg h]
    show (m ++ [(k, v)]).map Prod.fst = m.map Prod.fst ++ [k]
    rw [List.map_append]
    rfl

theorem mem_keysOf_dupdate {x : Path} (m : Inputs) (k : Path) (v : RootInfo)
    (h : x ∈ keysOf m) : x ∈ keysOf (dupdate m k v) := by
  rw [keysOf_dupdate]
  split
  · exact h
  · exact List.mem_append_left _ h

theorem nodup_keysOf_dupdate (m : Inputs) (k : Path) (v : RootInfo)
    (h : (keysOf m).Nodup) : (keysOf (dupdate m k v)).Nodup := by
  rw [keysOf_dupdate]
  split
  · exact h
  · next hk => simp [List.nodup_append, h, hk]

theorem keysOf_dappendFile {m m2 : Inputs} {k : Path} {f : FileInfo}
    (h : dappendFile m k f = some m2) : keysOf m2 = keysOf m := by
  unfold dappendFile at h
  split at h
  · cases h
    exact keysOf_map_entry m k _
  · cases h

/-- Both pieces of the mapping invariant, preserved by any sequence of
    updates: the "." key is present and the keys are unique. -/
theorem foldl_dupdate_invariant {α : Type} (key : α → Path) (val : α → RootInfo)
    (l : List α) :
    ∀ m : Inputs, ["."] ∈ keysOf m → (keysOf m).Nodup →
      ["."] ∈ keysOf (l.foldl (fun m x => dupdate m (key x) (val x)) m) ∧
      (keysOf (l.foldl (fun m x => dupdate m (key x) (val x)) m)).Nodup := by
  induction l with
  | nil => exact fun m h1 h2 => ⟨h1, h2⟩
  | cons a t ih =>
    intro m h1 h2
    simp only [List.foldl_cons]
    exact ih _ (mem_keysOf_dupdate _ _ _ h1) (nodup_keysOf_dupdate _ _ _ h2)

theorem appendExplicitFiles_keys {fe : FileInfo} :
    ∀ (fs : List Path) (m m2 : Inputs), appendExplicitFiles fe fs m = Except.ok m2 →
      keysOf m2 = keysOf m := by
  intro fs
  induction fs with
  | nil =>
    intro m m2 h
    cases h
    rfl
  | cons a t ih =>
    intro m m2 h
    cases hd : dappendFile m ["."] fe with
    | none =>
      simp only [appendExplicitFiles, hd] at h
      exact Except.noConfusion h
    | some mm =>
      simp only [appendExplicitFiles, hd] at h
      rw [ih mm m2 h, keysOf_dappendFile hd]

theorem registerDirs_invariant (srcdir : Path) (dirs : List Path) (m : Inputs)
    (h1 : ["."] ∈ keysOf m) (h2 : (keysOf m).Nodup) :
    ["."] ∈ keysOf (registerDirs srcdir dirs m) ∧
    (keysOf (registerDirs srcdir dirs m)).Nodup :=
  foldl_dupdate_invariant (fun d => [basenameOf d])
    (fun d => ⟨d, srcdir ++ [basenameOf d], []⟩) dirs m h1 h2

theorem dotBase_invariant (srcdir : Path) :
    ["."] ∈ keysOf (dupdate [] ["."] ⟨["."], srcdir, []⟩) ∧
    (keysOf (dupdate [] ["."] ⟨["."], srcdir, []⟩)).Nodup := by
  constructor <;> simp [dupdate, keysOf]

theorem resolve_explicit_invariant {w : World} {srcdir : Path} {fname : List Path}
    {m : Inputs} (h : resolve_explicit_inputs w srcdir fname = Except.ok m) :
    ["."] ∈ keysOf m ∧ (keysOf m).Nodup := by
  unfold resolve_explicit_inputs at h
  split at h
  · exact Except.noConfusion h
  · rename_i files dirs heq
    have hm1 := registerDirs_invariant srcdir dirs _
      (dotBase_invariant srcdir).1 (dotBase_invariant srcdir).2
    split at h
    · cases h
      exact hm1
    · split at h
      · exact Except.noConfusion h
      · rename_i d hd
        have hk := appendExplicitFiles_keys files _ _ h
        rw [hk]
        exact hm1

theorem resolve_recursive_invariant {w : World} {inputs m : Inputs}
    (h : resolve_inputs_recursively w inputs = Except.ok m)
    (h1 : ["."] ∈ keysOf inputs) (h2 : (keysOf inputs).Nodup) :
    ["."] ∈ keysOf m ∧ (keysOf m).Nodup := by
  unfold resolve_inputs_recursively at h
  split at h
  · cases h
  · cases h
    exact foldl_dupdate_invariant Prod.fst Prod.snd _ inputs h1 h2

/- Error-propagation lemmas for the validation of __init__ and the
   classification loop of _resolve_explicit_inputs. -/

theorem checkInputsExist_error_of_bad (w : World) :
    ∀ fname : List Path, (∃ f ∈ fname, ¬ w.pathExists f) →
      ∃ p ∈ fname, ¬ w.pathExists p ∧
        checkInputsExist w fname = Except.error (ResolveError.notExist p) := by
  intro fname
  induction fname with
  | nil =>
    rintro ⟨f, hf, _⟩
    cases hf
  | cons a t ih =>
    rintro ⟨f, hf, hbad⟩
    by_cases ha : w.pathExists a
    · have hrest : ∃ f ∈ t, ¬ w.pathExists f := by
        rcases List.mem_cons.mp hf with rfl | hft
        · exact absurd ha hbad
        · exact ⟨f, hft, hbad⟩
      rcases ih hrest with ⟨p, hp, hbadp, heq⟩
      exact ⟨p, List.mem_cons_of_mem _ hp, hbadp, by simp [checkInputsExist, ha, heq]⟩
    · exact ⟨a, List.mem_cons_self a t, ha, by simp [checkInputsExist, ha]⟩

theorem checkInputsExist_ok_of_all (w : World) :
    ∀ fname : List Path, (∀ f ∈ fname, w.pathExists f) →
      checkInputsExist w fname = Except.ok () := by
  intro fname
  induction fname with
  | nil => intro _; rfl
  | cons a t ih =>
    intro hall
    have ha := hall a (List.mem_cons_self a t)
    have ht := ih (fun f hf => hall f (List.mem_cons_of_mem _ hf))
    simp [checkInputsExist, ha, ht]

theorem classifyInputs_error_of_bad (w : World) :
    ∀ fname : List Path, (∃ f ∈ fname, ¬ validInput w f) →
      ∃ p ∈ fname, ¬ validInput w p ∧
        classifyInputs w fname = Except.error (ResolveError.unknownType p) := by
  intro fname
  induction fname with
  | nil =>
    rintro ⟨f, hf, _⟩
    cases hf
  | cons a t ih =>
    rintro ⟨f, hf, hbad⟩
    by_cases hv : validInput w a
    · have hrest : ∃ f ∈ t, ¬ validInput w f := by
        rcases List.mem_cons.mp hf with rfl | hft
        · exact absurd hv hbad
        · exact ⟨f, hft, hbad⟩
      rcases ih hrest with ⟨p, hp, hbadp, heq⟩
      refine ⟨p, List.mem_cons_of_mem _ hp, hbadp, ?_⟩
      by_cases hfc : w.isFile a ∧ extOf (basenameOf a) ∈ C_EXTS
      · simp [classifyInputs, hfc, heq, Except.map]
      · have hd : w.isDir a := Or.resolve_left hv hfc
        simp [classifyInputs, hfc, hd, heq, Except.map]
    · have hfc : ¬ (w.isFile a ∧ extOf (basenameOf a) ∈ C_EXTS) :=
        fun hc => hv (Or.inl hc)
      have hd : ¬ w.isDir a := fun hc => hv (Or.inr hc)
      exact ⟨a, List.mem_cons_self a t, hv, by simp [classifyInputs, hfc, hd]⟩

theorem classifyInputs_all_files (w : World) :
    ∀ fname : List Path,
      (∀ f ∈ fname, w.isFile f ∧ extOf (basenameOf f) ∈ C_EXTS) →
      classifyInputs w fname = Except.ok (fname, []) := by
  intro fname
  induction fname with
  | nil => intro _; rfl
  | cons a t ih =>
    intro hall
    have ha := hall a (List.mem_cons_self a t)
    have ht := ih (fun f hf => hall f (List.mem_cons_of_mem _ hf))
    simp [classifyInputs, ha, ht, Except.map]

/-- C3: an input list containing a path that is neither an existing
    recognized-extension file nor an existing directory makes resolution
    fail with an invalid-input error naming an offending path.  The whole
    invocation doxycheck_main returns that error, so no check_steps list -
    and in particular no staging write - is ever produced: the failure
    happens before any staging directory is populated. -/
theorem c3_invalid_input_aborts (w : World) (outdir : Path) (fname : List Path)
    (dh sh : Bool) (h : ∃ f ∈ fname, ¬ validInput w f) :
    ∃ p ∈ fname, ¬ validInput w p ∧
      (doxycheck_main w outdir fname dh sh = Except.error (ResolveError.notExist p) ∨
       doxycheck_main w outdir fname dh sh = Except.error (ResolveError.unknownType p)) := by
  by_cases hex : ∀ f ∈ fname, w.pathExists f
  · rcases classifyInputs_error_of_bad w fname h with ⟨p, hp, hbad, heq⟩
    have hok := checkInputsExist_ok_of_all w fname hex
    refine ⟨p, hp, hbad, Or.inr ?_⟩
    simp [doxycheck_main, doxycheck_resolve, hok, resolve_explicit_inputs, heq, Except.map]
  · push_neg at hex
    rcases checkInputsExist_error_of_bad w fname hex with ⟨p, hp, hbad, heq⟩
    refine ⟨p, hp, fun hv => hbad ?_, Or.inl ?_⟩
    · rcases hv with ⟨hf, _⟩ | hd
      · exact Or.inl hf
      · exact Or.inr hd
    · simp [doxycheck_main, doxycheck_resolve, heq, Except.map]

theorem c3_invalid_input_aborts_witness :
    ∃ p ∈ [[ "nope" ]], ¬ validInput worldSingleFile p ∧
      (doxycheck_main worldSingleFile sampleOut [[ "nope" ]] false false
          = Except.error (ResolveError.notExist p) ∨
       doxycheck_main worldSingleFile sampleOut [[ "nope" ]] false false
          = Except.error (ResolveError.unknownType p)) :=
  c3_invalid_input_aborts worldSingleFile sampleOut [[ "nope" ]] false false (by decide)

/-- C4: whenever resolution completes with a Mapping, the "." pseudo-root
    is one of its keys and the root names are unique keys. -/
theorem c4_dot_root_and_unique_keys (w : World) (srcdir : Path) (fname : List Path)
    (m : Inputs) (h : doxycheck_resolve w srcdir fname = Except.ok m) :
    ["."] ∈ keysOf m ∧ (keysOf m).Nodup := by
  unfold doxycheck_resolve at h
  split at h
  · exact Except.noConfusion h
  · split at h
    · exact Except.noConfusion h
    · rename_i inputs heq
      have hinv := resolve_explicit_invariant heq
      exact resolve_recursive_invariant h hinv.1 hinv.2

theorem c4_dot_root_and_unique_keys_witness :
    ["."] ∈ keysOf [(["."], (⟨["."], sampleSrc, []⟩ : RootInfo))] ∧
    (keysOf [(["."], (⟨["."], sampleSrc, []⟩ : RootInfo))]).Nodup :=
  c4_dot_root_and_unique_keys worldSingleFile sampleSrc [] _ rfl

/-- C10: an input list of existing recognized-extension files with no
    directory input does not produce a Mapping: the files loop of
    _resolve_explicit_inputs reads the directory loop variable d, which was
    never bound, so resolution fails with Python's NameError. -/
theorem c10_files_only_name_error (w : World) (srcdir : Path) (fname : List Path)
    (hne : fname ≠ [])
    (hall : ∀ f ∈ fname, w.isFile f ∧ extOf (basenameOf f) ∈ C_EXTS) :
    doxycheck_resolve w srcdir fname = Except.error ResolveError.nameError := by
  have hex : ∀ f ∈ fname, w.pathExists f := fun f hf => Or.inl (hall f hf).1
  have hok := checkInputsExist_ok_of_all w fname hex
  have hcl := classifyInputs_all_files w fname hall
  have hne2 : fname.isEmpty = false := by
    cases fname
    · exact absurd rfl hne
    · rfl
  simp [doxycheck_resolve, hok, resolve_explicit_inputs, hcl, hne2]

theorem c10_files_only_name_error_witness :
    doxycheck_resolve worldSingleFile sampleSrc [["main.c"]]
      = Except.error ResolveError.nameError :=
  c10_files_only_name_error worldSingleFile sampleSrc [["main.c"]]
    (by decide) (by decide)

/- Lemmas for the mirroring loop of _generate_doxygen. -/

theorem makedirsSem_existOk (ex : List Path) (p : Path) :
    ∃ ex2, makedirsSem ex p true = Except.ok ex2 ∧
      (∀ q ∈ ex, q ∈ ex2) ∧ p ∈ ex2 := by
  unfold makedirsSem
  by_cases h : p ∈ ex
  · exact ⟨ex, by simp [h], fun q hq => hq, h⟩
  · exact ⟨ex ++ [p], by simp [h], fun q hq => List.mem_append_left _ hq,
      List.mem_append_right _ (List.mem_singleton.mpr rfl)⟩

theorem mirrorFilesLoop_ok (w : World) :
    ∀ (fs : List FileInfo) (ws : List (Path × String)),
      (∀ f ∈ fs, ∃ c, w.read f.inPath = some c) →
      ∃ ws2, mirrorFilesLoop w fs ws = Except.ok ws2 ∧
        (∀ pc ∈ ws, pc ∈ ws2) ∧
        (∀ f ∈ fs, ∀ c, w.read f.inPath = some c →
          (f.outPath, markerComment ++ c) ∈ ws2) := by
  intro fs
  induction fs with
  | nil =>
    intro ws _
    exact ⟨ws, rfl, fun pc h => h, fun f hf => absurd hf (List.not_mem_nil f)⟩
  | cons f t ih =>
    intro ws hread
    rcases hread f (List.mem_cons_self f t) with ⟨c, hc⟩
    rcases ih (ws ++ [(f.outPath, markerComment ++ c)])
        (fun g hg => hread g (List.mem_cons_of_mem _ hg)) with
      ⟨ws2, heq, hmono, hall⟩
    refine ⟨ws2, by simp [mirrorFilesLoop, hc, heq], ?_, ?_⟩
    · exact fun pc hpc => hmono pc (List.mem_append_left _ hpc)
    · intro g hg c2 hc2
      rcases List.mem_cons.mp hg with rfl | hgt
      · have : c2 = c := by
          rw [hc] at hc2
          exact (Option.some.injEq _ _).mp hc2.symm
        subst this
        exact hmono _ (List.mem_append_right _ (List.mem_singleton.mpr rfl))
      · exact hall g hgt c2 hc2

theorem mirrorRootsLoop_ok (w : World) :
    ∀ (l : List (Path × RootInfo)) (st : List Path × List (Path × String)),
      (∀ kv ∈ l, ∀ f ∈ kv.2.files, ∃ c, w.read f.inPath = some c) →
      ∃ ex2 ws2, mirrorRootsLoop w l st = Except.ok (ex2, ws2) ∧
        (∀ q ∈ st.1, q ∈ ex2) ∧ (∀ pc ∈ st.2, pc ∈ ws2) ∧
        (∀ kv ∈ l, kv.2.outPath ∈ ex2) ∧
        (∀ kv ∈ l, ∀ f ∈ kv.2.files, ∀ c, w.read f.inPath = some c →
          (f.outPath, markerComment ++ c) ∈ ws2) := by
  intro l
  induction l with
  | nil =>
    intro st _
    exact ⟨st.1, st.2, rfl, fun q h => h, fun pc h => h,
      fun kv h => absurd h (List.not_mem_nil kv),
      fun kv h => absurd h (List.not_mem_nil kv)⟩
  | cons kv t ih =>
    intro st hread
    rcases makedirsSem_existOk st.1 kv.2.outPath with ⟨ex1, hex1, hexmono, hexmem⟩
    rcases mirrorFilesLoop_ok w kv.2.files st.2
        (hread kv (List.mem_cons_self kv t)) with ⟨ws1, hws1, hwsmono, hwsall⟩
    rcases ih (ex1, ws1) (fun g hg => hread g (List.mem_cons_of_mem _ hg)) with
      ⟨ex2, ws2, heq, hexmono2, hwsmono2, hexall, hwsall2⟩
    refine ⟨ex2, ws2, ?_, ?_, ?_, ?_, ?_⟩
    · simp [mirrorRootsLoop, mirrorRoot, hex1, hws1, heq]
    · exact fun q hq => hexmono2 q (hexmono q hq)
    · exact fun pc hpc => hwsmono2 pc (hwsmono pc hpc)
    · intro g hg
      rcases List.mem_cons.mp hg with rfl | hgt
      · exact hexmono2 _ hexmem
      · exact hexall g hgt
    · intro g hg f hf c hc
      rcases List.mem_cons.mp hg with rfl | hgt
      · exact hwsmono2 _ (hwsall f hf c hc)
      · exact hwsall2 g hgt f hf c hc

/-- C7: the mirroring loop of _generate_doxygen succeeds from ANY set of
    already existing directories - directory creation uses exist_ok, so an
    already-existing destination directory is not an error - and every
    Root's destPath directory is among the directories afterwards, and for
    every FileEntry the staged content written at its destPath is exactly
    the fixed single-line marker comment followed by the unmodified source
    content. -/
theorem c7_mirror_marker_and_idempotent_dirs (w : World) (existing : List Path)
    (inputs : Inputs)
    (hread : ∀ kv ∈ inputs, ∀ f ∈ kv.2.files, ∃ c, w.read f.inPath = some c) :
    ∃ ex ws, generate_doxygen_mirror w existing inputs = Except.ok (ex, ws) ∧
      (∀ kv ∈ inputs, kv.2.outPath ∈ ex) ∧
      (∀ kv ∈ inputs, ∀ f ∈ kv.2.files, ∀ c, w.read f.inPath = some c →
        (f.outPath, markerComment ++ c) ∈ ws) := by
  rcases mirrorRootsLoop_ok w inputs (existing, []) hread with
    ⟨ex, ws, heq, _, _, hexall, hwsall⟩
  exact ⟨ex, ws, heq, hexall, hwsall⟩

theorem c7_mirror_marker_and_idempotent_dirs_witness :
    ∃ ex ws, generate_doxygen_mirror worldNested (sampleSrc :: [sampleSrc ++ ["lib"]])
        mirrorInputs = Except.ok (ex, ws) ∧
      (∀ kv ∈ mirrorInputs, kv.2.outPath ∈ ex) ∧
      (∀ kv ∈ mirrorInputs, ∀ f ∈ kv.2.files, ∀ c, worldNested.read f.inPath = some c →
        (f.outPath, markerComment ++ c) ∈ ws) :=
  c7_mirror_marker_and_idempotent_dirs worldNested (sampleSrc :: [sampleSrc ++ ["lib"]])
    mirrorInputs (by
      intro kv hkv f hf
      simp only [mirrorInputs, List.mem_cons, List.not_mem_nil, or_false] at hkv
      rcases hkv with rfl | rfl
      · exact absurd hf (List.not_mem_nil f)
      · simp only [List.mem_cons, List.not_mem_nil, or_false] at hf
        subst hf
        exact ⟨"int b;", rfl⟩)

/- Lemmas for the warning-line rewrite of _show_doxygen_warnings. -/

theorem pyReplaceFuel_no_occur :
    ∀ (fuel : Nat) (t pre new : List Char), ¬ pre <:+: t →
      pyReplaceFuel fuel t pre new = t := by
  intro fuel
  induction fuel with
  | zero => intro t pre new _; rfl
  | succ n ih =>
    intro t pre new h
    cases t with
    | nil => rfl
    | cons c rest =>
      have hpre : ¬ pre.isPrefixOf (c :: rest) = true := by
        intro hp
        exact h (List.isPrefixOf_iff_prefix.mp hp).isInfix
      simp only [pyReplaceFuel, hpre, if_false, Bool.false_eq_true, ite_false]
      rw [ih rest pre new (fun hi => h (List.infix_cons hi))]

theorem pyReplaceFuel_strip (n : Nat) (pre t : List Char) (hne : pre ≠ [])
    (h : ¬ pre <:+: t) :
    pyReplaceFuel (Nat.succ n) (pre ++ t) pre [] = t := by
  cases pre with
  | nil => exact absurd rfl hne
  | cons p ps =>
    have hpref : (p :: ps).isPrefixOf (p :: (ps ++ t)) = true := by
      rw [List.isPrefixOf_iff_prefix, ← List.cons_append]
      exact List.prefix_append _ _
    have hdrop : (p :: (ps ++ t)).drop (p :: ps).length = t := by
      rw [← List.cons_append]
      exact List.drop_left _ _
    rw [List.cons_append]
    simp only [pyReplaceFuel, hpref, if_true, List.nil_append]
    rw [hdrop]
    exact pyReplaceFuel_no_occur n t (p :: ps) [] h

theorem pyReplace_strip (pre t : List Char) (hne : pre ≠ []) (h : ¬ pre <:+: t) :
    pyReplace (pre ++ t) pre [] = t := by
  unfold pyReplace
  have hemp : pre.isEmpty = false := by
    cases pre
    · exact absurd rfl hne
    · rfl
  rw [hemp]
  have hlen : (pre ++ t).length = Nat.succ (pre.length - 1 + t.length) := by
    cases pre
    · exact absurd rfl hne
    · simp [List.length_append, List.length_cons, Nat.succ_add]
  simp only [Bool.false_eq_true, if_false]
  rw [hlen]
  exact pyReplaceFuel_strip _ pre t hne h

theorem formatWarning_staged (sd : String) (wr : Warning) :
    formatWarning { wr with file := sd ++ "/" ++ wr.file }
      = sd ++ "/" ++ formatWarning wr := by
  apply String.ext
  simp [formatWarning, List.append_assoc]

/-- C8: the staged warning-log line for foo.c line 12 rewrites, through the
    prefix replacement of _show_doxygen_warnings, to a line that parses to
    the record with file foo.c, line 12, severity warning, and the message;
    and in general, for any warning whose staged file path is the staging
    file-source prefix followed by the logical name, and whose logical line
    does not itself contain that prefix, the rewrite strips exactly the
    prefix, leaving the logical warning line.  The parse grammar is
    modelled from the spec, since the source only rewrites and prints. -/
theorem c8_warning_line_parse_and_strip :
    parseWarningLine (show_doxygen_warnings_line "/tmp/doxycheck_x/src"
        "/tmp/doxycheck_x/src/foo.c:12: warning: undocumented parameter")
      = some ⟨"foo.c", 12, "warning", "undocumented parameter"⟩ ∧
    ∀ (sd : String) (wr : Warning),
      ¬ ((sd ++ "/").data <:+: (formatWarning wr).data) →
      show_doxygen_warnings_line sd
          (formatWarning { wr with file := sd ++ "/" ++ wr.file })
        = formatWarning wr := by
  constructor
  · rfl
  · intro sd wr h
    rw [formatWarning_staged]
    unfold show_doxygen_warnings_line
    have hd : (sd ++ "/" ++ formatWarning wr).data
        = (sd ++ "/").data ++ (formatWarning wr).data := by
      rw [String.data_append]
    rw [hd]
    have hne : (sd ++ "/").data ≠ [] := by
      rw [String.data_append]
      simp
    rw [pyReplace_strip _ _ hne h]

theorem c8_warning_line_parse_and_strip_witness :
    show_doxygen_warnings_line "/s"
        (formatWarning { (⟨"a.c", 3, "warning", "msg"⟩ : Warning) with
          file := "/s" ++ "/" ++ "a.c" })
      = formatWarning ⟨"a.c", 3, "warning", "msg"⟩ :=
  c8_warning_line_parse_and_strip.2 "/s" ⟨"a.c", 3, "warning", "msg"⟩ (by decide)

/-- C1 (code behavior at the failing input): resolving the directory input
    lib, which directly contains the recognized file a.c, does not produce
    a Mapping with a.c attached to the Root lib; it aborts with the
    unhandled KeyError of recursive_dirs["lib"] (line 256), because a file
    directly inside a top-level input directory is attached by looking up
    its containing directory among the recursively discovered roots only,
    and the top-level root lives in self.inputs instead. -/
theorem c1_direct_file_key_error :
    doxycheck_resolve worldLibDirect sampleSrc [["lib"]]
      = Except.error (ResolveError.keyError ["lib"]) := by
  rfl

/-- C2 (code behavior at the failing input): resolving the loose file
    main.c together with the directory include attaches to the "."
    pseudo-root a FileEntry whose sourcePath is the resolved path of the
    LAST DIRECTORY input and whose destPath comes from that directory's
    basename (the leftover loop variable d of lines 195-199), while main.c
    itself appears nowhere in the Mapping. -/
theorem c2_loop_variable_file_entry :
    doxycheck_resolve worldFileAndDir sampleSrc [["main.c"], ["include"]]
      = Except.ok
          [(["."], ⟨["."], sampleSrc, [⟨["include"], sampleSrc ++ ["include"]⟩]⟩),
           (["include"], ⟨["include"], sampleSrc ++ ["include"], []⟩)] := by
  rfl

/-- C5 (code behavior at the failing input): the Mapping resolved from
    main.c plus the directory include contains, under the "." pseudo-root,
    a FileEntry whose path has no recognized extension (it is the directory
    include itself, appended by the files loop of lines 195-207), so not
    every FileEntry's extension is in the recognized set. -/
theorem c5_unrecognized_entry_in_mapping :
    ∃ m, doxycheck_resolve worldFileAndDir sampleSrc [["main.c"], ["include"]]
        = Except.ok m ∧
      ∃ info, dlookup m ["."] = some info ∧
        ∃ fi, fi ∈ info.files ∧ extOf (basenameOf fi.inPath) ∉ C_EXTS := by
  refine ⟨[(["."], ⟨["."], sampleSrc, [⟨["include"], sampleSrc ++ ["include"]⟩]⟩),
           (["include"], ⟨["include"], sampleSrc ++ ["include"], []⟩)], rfl,
    ⟨["."], sampleSrc, [⟨["include"], sampleSrc ++ ["include"]⟩]⟩, rfl,
    ⟨["include"], sampleSrc ++ ["include"]⟩, ?_, ?_⟩
  · exact List.mem_cons_self _ _
  · decide

/-- C6 (code behavior at the failing input): resolving two distinct
    directory inputs a/lib and b/lib, which share the basename lib,
    produces a Mapping with a single Root named lib whose sourcePath is the
    SECOND directory - the dict update at line 193 silently overwrites the
    first - rather than two distinct Roots with non-colliding
    destinations. -/
theorem c6_basename_collision_overwrites :
    doxycheck_resolve worldBasenameClash sampleSrc [["a", "lib"], ["b", "lib"]]
      = Except.ok
          [(["."], ⟨["."], sampleSrc, []⟩),
           (["lib"], ⟨["b", "lib"], sampleSrc ++ ["lib"], []⟩)] := by
  rfl

/-- C9 (code behavior): the effect sequence of check() never contains a
    recursive removal of the staging root, whatever the flags: the cleanup
    call at lines 280-281 is commented out in the source (and _clear itself
    reads the never-assigned attribute self.output_dir), so the staging
    root is left on disk even when no persistent viewing was requested. -/
theorem c9_no_cleanup_step (outdir : Path) (inputs : Inputs) (dh sh : Bool) :
    (check_steps outdir inputs dh sh).filter (fun s => s.isRemove) = [] := by
  have hw : ∀ fs : List FileInfo,
      (fs.map (fun f => CheckStep.writeStaged f.inPath f.outPath)).filter
        (fun s => s.isRemove) = [] := by
    intro fs
    induction fs with
    | nil => rfl
    | cons f t ih => simp [CheckStep.isRemove, ih]
  have hflat : ∀ l : Inputs,
      ((l.map (fun kv => CheckStep.makedirsExistOk kv.2.outPath
          :: kv.2.files.map (fun f => CheckStep.writeStaged f.inPath f.outPath))).flatten).filter
        (fun s => s.isRemove) = [] := by
    intro l
    induction l with
    | nil => rfl
    | cons kv t ih =>
      simp only [List.map_cons, List.flatten_cons, List.filter_append, ih,
        List.append_nil, List.filter_cons]
      simp [CheckStep.isRemove, hw]
  unfold check_steps
  rw [List.filter_append, List.filter_append, List.filter_append, List.filter_append,
    hflat inputs]
  cases dh <;> cases sh <;> rfl

end Doxycheck
